import Mathlib

/-!
Verification development for the `pos_import` repository (a POS
Z-ticket ingestion pipeline).  The Python sources under
`pos_import/pos_import/parsers/{base,restomax,restomax_pdf}.py`,
`doctype/pos_connector/pos_connector.py` and
`doctype/pos_import/pos_import.py` are shallowly embedded below.

Modelling conventions:
* Python `Decimal` values are modelled as exact rationals (`ℚ`).  `Decimal`
  special values (the strings "NaN"/"Infinity" accepted by the `Decimal`
  constructor) are outside the model; no claim touches them.
* Python `float` conversions (`float(expected_tax)` etc.) are modelled as the
  exact rational value; binary floating-point rounding noise is abstracted
  away, as the spec's tolerances (0.01 / 1.0) dwarf it.
* `Decimal.quantize(Decimal("0.01"))` uses ROUND_HALF_EVEN; `q2` below
  implements round-half-even to two decimal places.  `frappe.utils.flt(x, 2)`
  rounds with Python's `round` (also half-even) and is modelled by the same
  function.
* CSV rows (`csv.DictReader`) deliver all cells as strings; a missing cell is
  `None`.  Rows are therefore records of `Option String` cells.  The Excel
  path, which can deliver native numeric/datetime cells, is outside the model.
-/

namespace PosImport

/-! ## Kernel-computable string primitives

Core `String` operations (`trim`, `replace`, `splitOn`, ...) are implemented
over byte positions and do not reduce inside the kernel, so the Python string
operations used by the parsers are modelled directly over character lists.
Every pattern the source replaces or splits on is a single character, so
single-character filter/map/split is an exact model. -/

/-- Python `str.strip()` (whitespace at both ends). -/
def pyStrip (s : String) : String :=
  String.mk (((s.data.dropWhile Char.isWhitespace).reverse.dropWhile
    Char.isWhitespace).reverse)

/-- ASCII lower-casing, `str.lower()` (non-ASCII letters pass through; the
keyword sets compared against are all ASCII). -/
def asciiLower (c : Char) : Char :=
  if 65 ≤ c.toNat ∧ c.toNat ≤ 90 then Char.ofNat (c.toNat + 32) else c

/-- ASCII upper-casing. -/
def asciiUpper (c : Char) : Char :=
  if 97 ≤ c.toNat ∧ c.toNat ≤ 122 then Char.ofNat (c.toNat - 32) else c

/-- Python `s.lower()`. -/
def pyLower (s : String) : String := String.mk (s.data.map asciiLower)

/-- Python `s.startswith(pre)`. -/
def pyStartsWith (s pre : String) : Bool := pre.data.isPrefixOf s.data

/-- Split a character list at every occurrence of `sep` (Python
`s.split(sep)` for a one-character separator). -/
def splitChar (sep : Char) : List Char → List (List Char)
  | [] => [[]]
  | c :: rest =>
    let r := splitChar sep rest
    if c = sep then [] :: r
    else
      match r with
      | [] => [[c]]
      | h :: t => (c :: h) :: t

/-- Python `s.split(sep)` for a one-character separator. -/
def pySplit (s : String) (sep : Char) : List String :=
  (splitChar sep s.data).map String.mk

/-- The numeric value of a nonempty all-digit string, else `none`. -/
def digitsToNat (cs : List Char) : Option ℕ :=
  if ¬ cs.isEmpty ∧ cs.all Char.isDigit then
    some (cs.foldl (fun a c => a * 10 + (c.toNat - 48)) 0)
  else none

/-! ## Round-half-even to two decimals (`Decimal.quantize(0.01)`, `flt(x, 2)`) -/

/-- Round a rational to the nearest integer, ties to even
(Python/`Decimal` default rounding). -/
def rhe (x : ℚ) : ℤ :=
  let f : ℤ := ⌊x⌋
  let r : ℚ := x - (f : ℚ)
  if r < 1/2 then f
  else if 1/2 < r then f + 1
  else if f % 2 = 0 then f else f + 1

/-- Round-half-even to two decimal places: `Decimal.quantize(Decimal("0.01"))`
and `flt(x, 2)`. -/
def q2 (x : ℚ) : ℚ := (rhe (x * 100) : ℚ) / 100

/-! ## Decimal-literal parsing (`decimal.Decimal(text)` on finite numerals)

`Decimal(text)` accepts `sign? (digits '.' digits? | '.' digits | digits)
([eE] sign? digits)?`.  Special values (NaN/Infinity spellings) are outside
the model; no claim feeds them. -/

/-- Numeric value of a digit list, most significant first. -/
def digitsVal (ds : List Char) : ℕ :=
  ds.foldl (fun a c => a * 10 + (c.toNat - 48)) 0

/-- Split a leading optional sign; returns (isNegative, rest). -/
def splitSign : List Char → Bool × List Char
  | '-' :: r => (true, r)
  | '+' :: r => (false, r)
  | cs => (false, cs)

/-- Parse the exponent tail `([eE] sign? digits)?`; `none` on malformed. -/
def parseExp : List Char → Option ℤ
  | [] => some 0
  | c :: r =>
    if c = 'e' ∨ c = 'E' then
      let (eneg, r1) := splitSign r
      let ds := r1.takeWhile Char.isDigit
      let rest := r1.dropWhile Char.isDigit
      if ds.isEmpty ∨ ¬ rest.isEmpty then none
      else some (if eneg then -(digitsVal ds : ℤ) else (digitsVal ds : ℤ))
    else none

/-- `Decimal(s)` on a finite numeric literal, `none` when the constructor
would raise `InvalidOperation`. -/
def parseDec (s : String) : Option ℚ :=
  let (neg, cs) := splitSign s.data
  let ip := cs.takeWhile Char.isDigit
  let r1 := cs.dropWhile Char.isDigit
  let (fp, r2) : List Char × List Char :=
    match r1 with
    | '.' :: r => (r.takeWhile Char.isDigit, r.dropWhile Char.isDigit)
    | _ => ([], r1)
  let hasPoint : Bool := match r1 with | '.' :: _ => true | _ => false
  if ip.isEmpty ∧ (fp.isEmpty ∨ ¬ hasPoint) then none
  else
    match parseExp r2 with
    | none => none
    | some e =>
      let mag : ℚ :=
        ((digitsVal ip : ℚ) + (digitsVal fp : ℚ) / (10 : ℚ) ^ fp.length)
          * (10 : ℚ) ^ e
      some (if neg then -mag else mag)

/-! ## The tabular variant's number parser (`RestomaxParser._parse_number`) -/

/-- A raw cell value as the parser may receive it: `None`, a native numeric
(int/float/Decimal, passed through), or text. -/
inductive CellValue where
  | vNone : CellValue
  | vNum : ℚ → CellValue
  | vStr : String → CellValue
deriving DecidableEq, Repr

/-- Strip thousands separators (space, no-break space U+00A0, narrow
no-break space U+202F) and turn the comma decimal separator into a dot
(each replaced pattern is one character). -/
def cleanNumberText (t : String) : String :=
  String.mk ((t.data.filter (fun c =>
    ¬ (c = '\u00a0' ∨ c = '\u202f' ∨ c = ' '))).map
    (fun c => if c = ',' then '.' else c))

/-- `RestomaxParser._parse_number`: European format, comma decimal separator,
space thousands separator; total, unparseable text yields 0. -/
def parse_number (value : CellValue) : ℚ :=
  match value with
  | .vNone => 0
  | .vNum q => q
  | .vStr s =>
    let text := pyStrip s
    if text = "" then 0
    else
      match parseDec (cleanNumberText text) with
      | some q => q
      | none => 0

/-- Apply `_parse_number` to a CSV cell (`row.get(col)`). -/
def cellNum (c : Option String) : ℚ :=
  match c with
  | none => parse_number .vNone
  | some s => parse_number (.vStr s)

/-! ## The PDF variant's number parsers (`RestomaxPDFParser`) -/

/-- `RestomaxPDFParser._parse_number`: dot = thousands separator,
comma = decimal separator, quantized to two decimals; total. -/
def pdf_parse_number (value : String) : ℚ :=
  if value = "" then 0
  else
    let t := String.mk ((pyStrip value).data.filter (fun c =>
      ¬ (c = '\u00a0' ∨ c = '\u202f' ∨ c = ' ' ∨ c = '.')))
    let t2 := String.mk (t.data.map (fun c => if c = ',' then '.' else c))
    match parseDec t2 with
    | some q => q2 q
    | none => 0

/-- `RestomaxPDFParser._parse_rate`: English decimal notation, quantized. -/
def pdf_parse_rate (value : String) : ℚ :=
  if value = "" then 0
  else
    match parseDec (pyStrip value) with
    | some q => q2 q
    | none => 0

/-! ## Dates (`RestomaxParser._parse_date` over string cells)

`datetime.strptime` is modelled for the four format patterns the source
tries, including real calendar validation (leap years, days per month),
since constructing the `date` validates it. -/

/-- A calendar date.  Python `date` objects compare chronologically, i.e.
lexicographically on (year, month, day). -/
structure PDate where
  year : ℕ
  month : ℕ
  day : ℕ
deriving DecidableEq, Repr

/-- Days in a month, with Gregorian leap years. -/
def daysInMonth (y m : ℕ) : ℕ :=
  if m = 1 ∨ m = 3 ∨ m = 5 ∨ m = 7 ∨ m = 8 ∨ m = 10 ∨ m = 12 then 31
  else if m = 4 ∨ m = 6 ∨ m = 9 ∨ m = 11 then 30
  else if y % 4 = 0 ∧ (y % 100 ≠ 0 ∨ y % 400 = 0) then 29
  else 28

/-- A `strptime` numeric field: 1 to `maxLen` digits, value in `[lo, hi]`. -/
def parseField (s : String) (maxLen lo hi : ℕ) : Option ℕ :=
  if 1 ≤ s.data.length ∧ s.data.length ≤ maxLen then
    match digitsToNat s.data with
    | some n => if lo ≤ n ∧ n ≤ hi then some n else none
    | none => none
  else none

/-- Build a date, validating it as `datetime.date` does. -/
def mkDate (y m d : ℕ) : Option PDate :=
  if 1 ≤ y ∧ y ≤ 9999 ∧ 1 ≤ m ∧ m ≤ 12 ∧ 1 ≤ d ∧ d ≤ daysInMonth y m then
    some ⟨y, m, d⟩
  else none

/-- `strptime(s, "%d/%m/%Y")`. -/
def parseDMYSlash (s : String) : Option PDate :=
  match pySplit s '/' with
  | [ds, ms, ys] =>
    match parseField ds 2 1 31, parseField ms 2 1 12, parseField ys 4 1 9999 with
    | some d, some m, some y => mkDate y m d
    | _, _, _ => none
  | _ => none

/-- `strptime(s, "%Y-%m-%d")`. -/
def parseISO (s : String) : Option PDate :=
  match pySplit s '-' with
  | [ys, ms, ds] =>
    match parseField ys 4 1 9999, parseField ms 2 1 12, parseField ds 2 1 31 with
    | some y, some m, some d => mkDate y m d
    | _, _, _ => none
  | _ => none

/-- `strptime(s, "%d-%m-%Y")`. -/
def parseDMYDash (s : String) : Option PDate :=
  match pySplit s '-' with
  | [ds, ms, ys] =>
    match parseField ds 2 1 31, parseField ms 2 1 12, parseField ys 4 1 9999 with
    | some d, some m, some y => mkDate y m d
    | _, _, _ => none
  | _ => none

/-- `strptime(s, "%Y-%m-%d %H:%M:%S")`: ISO date plus a valid time of day
(whose value is discarded by `.date()`). -/
def parseISODateTime (s : String) : Option PDate :=
  match pySplit s ' ' with
  | [datePart, timePart] =>
    match pySplit timePart ':' with
    | [hs, ms, ss] =>
      match parseField hs 2 0 23, parseField ms 2 0 59, parseField ss 2 0 61 with
      | some _, some _, some _ => parseISO datePart
      | _, _, _ => none
    | _ => none
  | _ => none

/-- `RestomaxParser._parse_date` on a CSV cell: try the four formats in
order on the stripped string; fall back to `now` (`datetime.now().date()`,
passed as a parameter) when all fail or the cell is absent. -/
def parse_date (now : PDate) (cell : Option String) : PDate :=
  match cell with
  | none => now
  | some s =>
    let t := pyStrip s
    match parseDMYSlash t with
    | some d => d
    | none =>
      match parseISO t with
      | some d => d
      | none =>
        match parseDMYDash t with
        | some d => d
        | none =>
          match parseISODateTime t with
          | some d => d
          | none => now

/-! ## Canonical report model (`parsers/base.py`) -/

/-- `POSLine`: one revenue line within a report. -/
structure POSLine where
  source_code : String
  description : String
  net_amount : ℚ
  tax_rate : ℚ
  tax_amount : ℚ
  gross_amount : ℚ
deriving DecidableEq, Repr

/-- `POSPayment`: one payment-method entry. -/
structure POSPayment where
  source_code : String
  source_name : String
  amount : ℚ
deriving DecidableEq, Repr

/-- `POSReport`: one Z closing.  `vat_by_rate` is a Python dict keyed by
`Decimal` tax rates (equal rationals are the same key); it is modelled as an
association list in insertion order with pairwise-distinct keys by
construction. -/
structure POSReport where
  report_number : String
  report_date : PDate
  lines : List POSLine := []
  payments : List POSPayment := []
  vat_by_rate : List (ℚ × ℚ) := []
deriving DecidableEq, Repr

/-- Python's `sum(gen, Decimal(0))`: a left fold starting at zero. -/
def pySum (l : List ℚ) : ℚ := l.foldl (fun a x => a + x) 0

/-- `POSReport.total_net` (a `@property`: recomputed on each read). -/
def total_net (r : POSReport) : ℚ := pySum (r.lines.map POSLine.net_amount)

/-- `POSReport.total_tax`: authoritative VAT when `vat_by_rate` is non-empty
(Python dict truthiness), else the sum of the per-line tax amounts. -/
def total_tax (r : POSReport) : ℚ :=
  if r.vat_by_rate ≠ [] then pySum (r.vat_by_rate.map Prod.snd)
  else pySum (r.lines.map POSLine.tax_amount)

/-- `POSReport.total_gross`. -/
def total_gross (r : POSReport) : ℚ :=
  if r.vat_by_rate ≠ [] then total_net r + total_tax r
  else pySum (r.lines.map POSLine.gross_amount)

/-- `POSReport.total_payments`. -/
def total_payments (r : POSReport) : ℚ := pySum (r.payments.map POSPayment.amount)

/-! ## The tabular parser (`parsers/restomax.py`, `RestomaxParser.parse`)

A CSV row (`csv.DictReader`) delivers every present cell as a string. -/

/-- One source row, by column name: `N° Z`, `Date clôture`, `ID Restomax`,
`Compte général`, `Description`, `TVA`, `DEBIT`, `CREDIT`. -/
structure Row where
  nZ : Option String := none
  dateCloture : Option String := none
  idRestomax : Option String := none
  compteGeneral : Option String := none
  description : Option String := none
  tva : Option String := none
  debit : Option String := none
  credit : Option String := none
deriving DecidableEq, Repr

/-- `str(row.get(col) or "").strip()`. -/
def cellStr (c : Option String) : String := pyStrip (c.getD "")

/-- Python substring containment (`kw in s`). -/
def strContains (s kw : String) : Bool :=
  s.data.tails.any (fun t => kw.data.isPrefixOf t)

/-- The revenue summary-row keyword list (case-insensitive substring match). -/
def summaryKeywords : List String :=
  ["total", "sous-total", "subtotal", "ca global", "ca tvac", "ca hors"]

/-- The dedup key `(report_num, account, original_description, str(debit),
str(credit))`.  `str` of the parsed `Decimal` is modelled by its rational
value; this identifies spellings such as "20" and "20.00" that Python keeps
distinct, which is harmless for the claims proved (a verbatim duplicate row
always yields an equal key in both semantics). -/
def rowKey (row : Row) (rn : String) : String × String × String × ℚ × ℚ :=
  (rn, cellStr row.compteGeneral, cellStr row.description,
   cellNum row.debit, cellNum row.credit)

/-- One revenue entry accumulated under `reports_data[n]["revenues"]`. -/
structure RevRow where
  account : String
  idRestomax : String
  description : String
  amount : ℚ
  tvaRate : ℚ
deriving DecidableEq, Repr

/-- One VAT entry accumulated under `reports_data[n]["vat"]`. -/
structure VatRow where
  account : String
  description : String
  amount : ℚ
  tvaRate : ℚ
deriving DecidableEq, Repr

/-- One payment entry accumulated under `reports_data[n]["payments"]`. -/
structure PayRow where
  account : String
  idRestomax : String
  description : String
  amount : ℚ
deriving DecidableEq, Repr

/-- The per-report accumulator `reports_data[report_num]`. -/
structure RData where
  date : Option String
  revenues : List RevRow := []
  payments : List PayRow := []
  vat : List VatRow := []
deriving DecidableEq, Repr

/-- The loop state: `reports_data` (a dict in insertion order) and the
`seen_lines` set. -/
structure PState where
  reports : List (String × RData) := []
  seen : List (String × String × String × ℚ × ℚ) := []
deriving DecidableEq, Repr

/-- Dict lookup `reports_data.get(rn)`. -/
def lookupR (l : List (String × RData)) (rn : String) : Option RData :=
  (l.find? (fun p => p.1 == rn)).map Prod.snd

/-- In-place update of the entry keyed `rn`. -/
def updateR (l : List (String × RData)) (rn : String) (f : RData → RData) :
    List (String × RData) :=
  l.map (fun p => if p.1 == rn then (p.1, f p.2) else p)

/-- The classification part of the loop body: account prefix 700 → revenue,
451 → VAT collected, 580 → payment, anything else ignored.  Restomax doubles
all amounts, hence the division by 2. -/
def classifyRow (reports1 : List (String × RData)) (rn : String) (row : Row) :
    List (String × RData) :=
  let account := cellStr row.compteGeneral
  let idR := cellStr row.idRestomax
  let origDesc := cellStr row.description
  let desc := if origDesc = "" then "Others" else origDesc
  let debit := cellNum row.debit
  let credit := cellNum row.credit
  let tvaRate := cellNum row.tva
  if pyStartsWith account "700" then
    if summaryKeywords.any (fun k => strContains (pyLower origDesc) k) then reports1
    else
      let amount := (credit - debit) / 2
      if 0 < amount then
        updateR reports1 rn (fun d =>
          { d with revenues := d.revenues ++ [⟨account, idR, desc, amount, tvaRate⟩] })
      else reports1
  else if pyStartsWith account "451" then
    if strContains (pyLower origDesc) "total" then reports1
    else if idR = "" then reports1
    else
      let amount := (credit - debit) / 2
      if amount ≠ 0 then
        updateR reports1 rn (fun d =>
          { d with vat := d.vat ++ [⟨account, desc, amount, tvaRate⟩] })
      else reports1
  else if pyStartsWith account "580" then
    if pyStartsWith origDesc "Total CA" ∨ pyStartsWith origDesc "Total PAIEMENT" then reports1
    else
      let amount := (debit - credit) / 2
      if 0 < amount then
        updateR reports1 rn (fun d =>
          { d with payments := d.payments ++ [⟨account, idR, desc, amount⟩] })
      else reports1
  else reports1

/-- One iteration of the row loop in `RestomaxParser.parse`: skip rows with a
falsy `N° Z`, dedup on the composite key, create the report entry on first
sight (capturing that row's `Date clôture`), then classify. -/
def processRow (st : PState) (row : Row) : PState :=
  match row.nZ with
  | none => st
  | some s0 =>
    if s0 = "" then st
    else
      let rn := pyStrip s0
      let key := rowKey row rn
      if st.seen.any (fun k => decide (k = key)) then st
      else
        let reports1 :=
          if (lookupR st.reports rn).isSome then st.reports
          else st.reports ++ [(rn, { date := row.dateCloture })]
        { reports := classifyRow reports1 rn row, seen := key :: st.seen }

/-- `report.vat_by_rate[rate] += amount`, creating the key at 0 first. -/
def vatAdd (m : List (ℚ × ℚ)) (rate amt : ℚ) : List (ℚ × ℚ) :=
  if m.any (fun p => p.1 == rate) then
    m.map (fun p => if p.1 == rate then (p.1, p.2 + amt) else p)
  else m ++ [(rate, amt)]

/-- The report-building part of `parse`: aggregate VAT by rate, emit lines
(net quantized to 2 decimals, tax left at zero) and payments
(`id_restomax or description` as source code). -/
def mkReport (now : PDate) (rn : String) (d : RData) : POSReport :=
  { report_number := rn
    report_date := parse_date now d.date
    vat_by_rate := d.vat.foldl (fun m v => vatAdd m v.tvaRate v.amount) []
    lines := d.revenues.map (fun l =>
      { source_code := if l.idRestomax = "" then l.description else l.idRestomax
        description := l.description
        net_amount := q2 l.amount
        tax_rate := l.tvaRate
        tax_amount := 0
        gross_amount := q2 l.amount })
    payments := d.payments.map (fun p =>
      { source_code := if p.idRestomax = "" then p.description else p.idRestomax
        source_name := p.description
        amount := q2 p.amount }) }

/-! ### The final sort: `sorted(reports, key=lambda r: (r.report_date,
r.report_number))` -/

/-- Lexicographic string comparison by code point (Python `str` `<=`). -/
def charsLe : List Char → List Char → Bool
  | [], _ => true
  | _ :: _, [] => false
  | a :: xs, b :: ys => if a < b then true else if b < a then false else charsLe xs ys

/-- Python `s <= t` on strings. -/
def strLe (s t : String) : Bool := charsLe s.data t.data

/-- Chronological strict order on dates. -/
def dateLt (a b : PDate) : Bool :=
  decide (a.year < b.year) ||
    (decide (a.year = b.year) &&
      (decide (a.month < b.month) ||
        (decide (a.month = b.month) && decide (a.day < b.day))))

/-- The sort key order: `(report_date, report_number)` ascending,
tuples compared lexicographically. -/
def keyLe (a b : POSReport) : Bool :=
  dateLt a.report_date b.report_date ||
    (decide (a.report_date = b.report_date) && strLe a.report_number b.report_number)

/-- Insert into a list sorted by `keyLe`. -/
def insertReport (x : POSReport) : List POSReport → List POSReport
  | [] => [x]
  | y :: ys => if keyLe x y then x :: y :: ys else y :: insertReport x ys

/-- `sorted(·, key=lambda r: (r.report_date, r.report_number))`.  All report
numbers in one parse are distinct (dict keys), so the sort keys are distinct
and any correct sort produces Python's output. -/
def sortReports (l : List POSReport) : List POSReport := l.foldr insertReport []

/-- `RestomaxParser.parse` on CSV rows.  `now` abstracts
`datetime.now().date()`, the fallback date. -/
def restomax_parse (now : PDate) (rows : List Row) : List POSReport :=
  let st := rows.foldl processRow {}
  sortReports (st.reports.map (fun p => mkReport now p.1 p.2))

/-! ## PDF payment extraction (`RestomaxPDFParser._extract_payments`)

The regular expression
`(eft|cash|carte|cb|especes|cheque|ticket)\s*[-–]\s*\d+x?[^:]*:\s*([\d\.\s,]+)\s*EUR`
(IGNORECASE) is modelled at the match level: a match is the pair
(group 1 = the keyword, group 2 = the amount text).  The alternation
guarantees that group 1, lowercased, is one of the seven keywords; that
guarantee becomes a hypothesis of the invariant theorem. -/

/-- Python `str.capitalize()`. -/
def pyCapitalize (s : String) : String :=
  match s.data with
  | [] => ""
  | c :: cs => String.mk (asciiUpper c :: cs.map asciiLower)

/-- The seven keywords the payment pattern can match (lowercased). -/
def paymentKeywords : List String :=
  ["eft", "cash", "carte", "cb", "especes", "cheque", "ticket"]

/-- The keyword-normalization branch of `_extract_payments` (including the
catch-all `else` arm). -/
def normalizePayment (t : String) : String × String :=
  if t = "eft" ∨ t = "carte" ∨ t = "cb" then ("eft", "Carte bancaire")
  else if t = "cash" ∨ t = "especes" then ("cash", "Espèces")
  else if t = "cheque" then ("cheque", "Chèque")
  else if t = "ticket" then ("ticket", "Ticket Restaurant")
  else (t, pyCapitalize t)

/-- `_extract_payments` over the list of regex matches, in match order:
parse the amount, drop non-positive amounts, normalize the keyword. -/
def extract_payments (ms : List (String × String)) : List POSPayment :=
  ms.filterMap (fun m =>
    let paymentType := pyLower m.1
    let amount := pdf_parse_number m.2
    if amount ≤ 0 then none
    else
      let n := normalizePayment paymentType
      some { source_code := n.1, source_name := n.2, amount := amount })

/-! ## Intra-report tax check (`POSImport._validate_tax_amounts`) -/

/-- The payload of a tax-discrepancy message: the line's description and the
`flt(·, 2)`-rounded expected tax, actual tax, and difference, exactly the
values interpolated into the message. -/
structure TaxDiscrepancy where
  description : String
  expected : ℚ
  actual : ℚ
  diff : ℚ
deriving DecidableEq, Repr

/-- `|float(expected_tax) - float(line.tax_amount)|` for one line
(float conversion modelled exactly). -/
def lineTaxDiff (l : POSLine) : ℚ := |l.net_amount * l.tax_rate / 100 - l.tax_amount|

/-- The message payload built for line `l`. -/
def mkDiscrepancy (l : POSLine) : TaxDiscrepancy :=
  { description := l.description
    expected := q2 (l.net_amount * l.tax_rate / 100)
    actual := q2 l.tax_amount
    diff := q2 (lineTaxDiff l) }

/-- Does line `l` trigger the hard failure (`frappe.throw`)? -/
def isTaxOffender (l : POSLine) : Bool :=
  decide (0 < l.tax_rate) && decide (1 < lineTaxDiff l)

/-- Does line `l` trigger the non-fatal warning (`frappe.msgprint`)? -/
def isTaxWarning (l : POSLine) : Bool :=
  decide (0 < l.tax_rate) && decide (1/100 < lineTaxDiff l) && decide (lineTaxDiff l ≤ 1)

/-- The line loop of `_validate_tax_amounts`: warnings accumulate in emission
order; `frappe.throw` aborts at the first line whose difference exceeds 1. -/
def taxCheckLoop : List POSLine → List TaxDiscrepancy →
    Except TaxDiscrepancy (List TaxDiscrepancy)
  | [], ws => .ok ws
  | l :: ls, ws =>
    if l.tax_rate ≤ 0 then taxCheckLoop ls ws
    else if 1 < lineTaxDiff l then .error (mkDiscrepancy l)
    else if 1/100 < lineTaxDiff l then taxCheckLoop ls (ws ++ [mkDiscrepancy l])
    else taxCheckLoop ls ws

/-- `POSImport._validate_tax_amounts`: skipped entirely (no failure, no
warning) when `vat_by_rate` is non-empty; otherwise the per-line loop. -/
def validate_tax_amounts (r : POSReport) : Except TaxDiscrepancy (List TaxDiscrepancy) :=
  if r.vat_by_rate ≠ [] then .ok []
  else taxCheckLoop r.lines []

/-! ## Report-vs-invoice check (`POSImport._validate_invoice_against_z_ticket`) -/

/-- The invoice fields the check reads, as recomputed by the accounting
system after insert. -/
structure SalesInvoiceTotals where
  net_total : ℚ
  total_taxes_and_charges : ℚ
  grand_total : ℚ
  payments : List ℚ
deriving DecidableEq, Repr

/-- One accumulated discrepancy entry: which pair, the Z-ticket value and
invoice value as shown in the message, and the difference. -/
structure PairDiscrepancy where
  pairName : String
  zShown : ℚ
  invShown : ℚ
  diffShown : ℚ
deriving DecidableEq, Repr

/-- The four comparisons, in source order, each appending to `errors` when
its difference exceeds the tolerance of 1.0.  The Z-ticket side is the raw
total (`float(report.total_*)`, unrounded); the invoice side is rounded to
two decimals (`flt(si.*, 2)`). -/
def invoiceDiscrepancies (si : SalesInvoiceTotals) (r : POSReport) :
    List PairDiscrepancy :=
  let zNet := total_net r
  let zTax := total_tax r
  let zGross := total_gross r
  let zPay := total_payments r
  let invNet := q2 si.net_total
  let invTax := q2 si.total_taxes_and_charges
  let invGross := q2 si.grand_total
  let invPay := q2 (pySum si.payments)
  (if 1 < |zNet - invNet| then
      [⟨"Net Total (HT)", q2 zNet, invNet, q2 |zNet - invNet|⟩] else []) ++
  (if 1 < |zTax - invTax| then
      [⟨"Tax Total (TVA)", q2 zTax, invTax, q2 |zTax - invTax|⟩] else []) ++
  (if 1 < |zGross - invGross| then
      [⟨"Grand Total (TTC)", q2 zGross, invGross, q2 |zGross - invGross|⟩] else []) ++
  (if 1 < |zPay - invPay| then
      [⟨"Payments", q2 zPay, invPay, q2 |zPay - invPay|⟩] else [])

/-- `_validate_invoice_against_z_ticket`: raises one combined failure listing
every exceeded pair iff at least one pair exceeds tolerance. -/
def validate_invoice_against_z_ticket (si : SalesInvoiceTotals) (r : POSReport) :
    Except (String × List PairDiscrepancy) Unit :=
  match invoiceDiscrepancies si r with
  | [] => .ok ()
  | es => .error (r.report_number, es)

/-! ## Connector lookups (`doctype/pos_connector/pos_connector.py`) -/

/-- One row of the connector's item-mapping child table. -/
structure ItemMapping where
  source_code : String
  item : String
  uom : Option String := none
deriving DecidableEq, Repr

/-- One row of the connector's payment-mapping child table. -/
structure PaymentMapping where
  source_code : String
  mode_of_payment : String
deriving DecidableEq, Repr

/-- The connector configuration the orchestrator reads. -/
structure Connector where
  item_mapping : List ItemMapping := []
  payment_mapping : List PaymentMapping := []
  default_unmapped_item : Option String := none
  company : String := ""
  create_draft_invoices : Bool := false
deriving DecidableEq, Repr

/-- `POSConnector.get_item_mapping`: first exact `source_code` match. -/
def get_item_mapping (c : Connector) (sc : String) : Option ItemMapping :=
  c.item_mapping.find? (fun m => m.source_code == sc)

/-- `POSConnector.get_mode_of_payment_for_source_code`: first exact
`source_code` match, no fallback. -/
def get_mode_of_payment_for_source_code (c : Connector) (sc : String) :
    Option String :=
  (c.payment_mapping.find? (fun m => m.source_code == sc)).map
    PaymentMapping.mode_of_payment

/-! ## Invoice building (`POSImport._create_sales_invoice`): the fallible
mapping loops -/

/-- The per-report failure messages raised by `_create_sales_invoice`. -/
def itemErrMsg (sc : String) : String :=
  "No item mapping found for source code " ++ sc ++
    ". Please configure the connector or set a default item for unmapped codes."

/-- The message naming an unmapped payment source code. -/
def payErrMsg (sc : String) : String :=
  "No payment mapping found for source code " ++ sc ++ ". Please configure the connector."

/-- The item loop: mapping, else the connector's default unmapped item, else
a hard failure naming the line's source code. -/
def resolveLines (c : Connector) : List POSLine → Except String (List String)
  | [] => .ok []
  | l :: ls =>
    let itemCode : Option String :=
      match get_item_mapping c l.source_code with
      | some m => some m.item
      | none => c.default_unmapped_item
    match itemCode with
    | none => .error (itemErrMsg l.source_code)
    | some code =>
      match resolveLines c ls with
      | .error e => .error e
      | .ok rest => .ok (code :: rest)

/-- The payment loop: exact lookup, no fallback, hard failure naming the
unmapped source code. -/
def resolvePayments (c : Connector) : List POSPayment → Except String (List (String × ℚ))
  | [] => .ok []
  | p :: ps =>
    match get_mode_of_payment_for_source_code c p.source_code with
    | none => .error (payErrMsg p.source_code)
    | some mop =>
      match resolvePayments c ps with
      | .error e => .error e
      | .ok rest => .ok ((mop, p.amount) :: rest)

/-- The mapping phase of `_create_sales_invoice` (items then payments); the
insert, the invoice-vs-report validation and the optional submit follow on
success and are modelled separately. -/
def buildInvoiceMappings (c : Connector) (r : POSReport) :
    Except String (List String × List (String × ℚ)) :=
  match resolveLines c r.lines with
  | .error e => .error e
  | .ok items =>
    match resolvePayments c r.payments with
    | .error e => .error e
    | .ok pays => .ok (items, pays)

/-! ## Idempotency head of `_create_sales_invoice` -/

/-- A stored Sales Invoice as the idempotency lookup sees it.
`docstatus`: 0 = draft, 1 = submitted, 2 = cancelled. -/
structure Invoice where
  name : ℕ
  po_no : String
  company : String
  docstatus : ℕ
deriving DecidableEq, Repr

/-- `frappe.db.get_value("Sales Invoice", {po_no, company, docstatus != 2})`:
some non-cancelled match (the first, in the model). -/
def findExisting (store : List Invoice) (po comp : String) : Option Invoice :=
  store.find? (fun i => i.po_no == po && i.company == comp && i.docstatus != 2)

/-- Number of non-cancelled invoices for a (po_no, company) key. -/
def countActive (store : List Invoice) (po comp : String) : ℕ :=
  (store.filter (fun i => i.po_no == po && i.company == comp && i.docstatus != 2)).length

/-- The idempotency head of `_create_sales_invoice`, plus the insert/submit
of the success path: reuse a submitted invoice as-is; delete a draft and
rebuild; otherwise build anew.  `fresh` is the name the document store
assigns to a newly inserted invoice; the new invoice is submitted unless the
connector asks for drafts.  Returns the new store, the name of the invoice
used, and whether a new document was created. -/
def createInvoiceIdem (store : List Invoice) (po comp : String) (fresh : ℕ)
    (createDraft : Bool) : List Invoice × ℕ × Bool :=
  let newInv : Invoice := ⟨fresh, po, comp, if createDraft then 0 else 1⟩
  match findExisting store po comp with
  | some ex =>
    if ex.docstatus = 1 then (store, ex.name, false)
    else ((store.filter (fun i => ¬ i.name = ex.name)) ++ [newInv], fresh, true)
  | none => (store ++ [newInv], fresh, true)

/-! ## Orchestrator (`POSImport.on_submit`) -/

/-- A report row's terminal status for one run. -/
inductive RowStatus where
  | Skipped : RowStatus
  | Created : RowStatus
  | Error : String → RowStatus
deriving DecidableEq, Repr

/-- The batch-level status derived from the row outcomes. -/
inductive BatchStatus where
  | Success : BatchStatus
  | PartialSuccess : BatchStatus
  | Error : BatchStatus
deriving DecidableEq, Repr

/-- Render a tax failure into the thrown message's payload (the orchestrator
stores `str(e)`); kept abstract as the structured payload. -/
def taxErrMsg (d : TaxDiscrepancy) : String :=
  "Tax discrepancy for " ++ d.description

/-- One report's processing in the `on_submit` loop: skip empty reports,
then tax check, then the invoice build; any failure marks the row Error with
the message and the loop continues with the next report. -/
def runReport (c : Connector) (r : POSReport) : RowStatus :=
  if r.lines = [] then .Skipped
  else
    match validate_tax_amounts r with
    | .error d => .Error (taxErrMsg d)
    | .ok _ =>
      match buildInvoiceMappings c r with
      | .error e => .Error e
      | .ok _ => .Created

/-- The batch status computation at the end of `on_submit` (lines 73-84 of
`pos_import.py`): skipped rows count toward neither success nor error. -/
def batchStatus (rows : List RowStatus) : BatchStatus :=
  let success := (rows.filter (fun s => s == .Created)).length
  let error := (rows.filter (fun s => match s with | .Error _ => true | _ => false)).length
  if success + error = 0 then .Error
  else if error = 0 then .Success
  else if success = 0 then .Error
  else .PartialSuccess

/-- `on_submit` over the parsed reports: per-report outcomes plus the
derived batch status. -/
def runImport (c : Connector) (reports : List POSReport) :
    List (String × RowStatus) × BatchStatus :=
  let rows := reports.map (fun r => (r.report_number, runReport c r))
  (rows, batchStatus (rows.map Prod.snd))

/-! ## Shared small lemmas -/

lemma pySum_cons (x : ℚ) (l : List ℚ) : pySum (x :: l) = x + pySum l := by
  have haux : ∀ (l : List ℚ) (a : ℚ),
      l.foldl (fun x y => x + y) a = a + l.foldl (fun x y => x + y) 0 := by
    intro l
    induction l with
    | nil => intro a; simp
    | cons z zs ih =>
      intro a
      simp only [List.foldl]
      rw [ih (a + z), ih (0 + z)]
      ring
  simp only [pySum, List.foldl]
  rw [haux l (0 + x)]
  ring

lemma pySum_eq_sum (l : List ℚ) : pySum l = l.sum := by
  induction l with
  | nil => rfl
  | cons x xs ih => rw [pySum_cons, ih, List.sum_cons]

section RatEval

attribute [local semireducible] Rat.add Rat.mul Rat.inv Rat.sub Rat.ofScientific

/-! ## Fixtures: concrete inputs used by witnesses and counterexamples -/

/-- A fixed stand-in for `datetime.now().date()`. -/
def nowFix : PDate := ⟨2030, 1, 1⟩

/-- The spec's end-to-end revenue row: account "700100", debit 0,
credit 20.00, description "Plat du jour", TVA 10, report "1", 01/06/2025. -/
def rowC2a : Row :=
  { nZ := some "1", dateCloture := some "01/06/2025", compteGeneral := some "700100",
    description := some "Plat du jour", tva := some "10", debit := some "0",
    credit := some "20.00" }

/-- The spec's end-to-end payment row: account "580000", debit 11.00,
credit 0. -/
def rowC2b : Row :=
  { nZ := some "1", dateCloture := some "01/06/2025", compteGeneral := some "580000",
    description := some "Especes", debit := some "11.00", credit := some "0" }

/-- The report the end-to-end scenario must produce. -/
def repC2 : POSReport :=
  { report_number := "1", report_date := ⟨2025, 6, 1⟩,
    lines := [{ source_code := "Plat du jour", description := "Plat du jour",
                net_amount := 10, tax_rate := 10, tax_amount := 0, gross_amount := 10 }],
    payments := [{ source_code := "Especes", source_name := "Especes", amount := 5.50 }],
    vat_by_rate := [] }

/-! ## C3 — derived report totals -/

/-- C3: the four derived totals are pure functions of the current lines,
payments and `vat_by_rate`: `total_net` sums line net amounts;
`total_tax` sums the `vat_by_rate` values when that mapping is non-empty and
the line tax amounts otherwise; `total_gross` is `total_net + total_tax` when
`vat_by_rate` is non-empty and the sum of line gross amounts otherwise;
`total_payments` sums payment amounts; the empty sum is 0. -/
theorem claim_C3 (r : POSReport) :
    total_net r = (r.lines.map POSLine.net_amount).sum ∧
    (r.vat_by_rate ≠ [] →
      total_tax r = (r.vat_by_rate.map Prod.snd).sum ∧
      total_gross r = total_net r + total_tax r) ∧
    (r.vat_by_rate = [] →
      total_tax r = (r.lines.map POSLine.tax_amount).sum ∧
      total_gross r = (r.lines.map POSLine.gross_amount).sum) ∧
    total_payments r = (r.payments.map POSPayment.amount).sum ∧
    pySum [] = 0 := by
  refine ⟨pySum_eq_sum _, fun h => ⟨?_, ?_⟩, fun h => ⟨?_, ?_⟩, pySum_eq_sum _, rfl⟩ <;>
    simp [total_tax, total_gross, h, pySum_eq_sum]

/-- A report carrying authoritative VAT, for the C3 witness. -/
def repC3v : POSReport :=
  { report_number := "2", report_date := ⟨2025, 6, 2⟩,
    lines := [{ source_code := "x", description := "x", net_amount := 10,
                tax_rate := 10, tax_amount := 0, gross_amount := 10 }],
    vat_by_rate := [(10, 5)] }

/-- A report without `vat_by_rate`, for the C3 witness. -/
def repC3e : POSReport :=
  { report_number := "3", report_date := ⟨2025, 6, 3⟩,
    lines := [{ source_code := "x", description := "x", net_amount := 10,
                tax_rate := 10, tax_amount := 2, gross_amount := 12 }] }

theorem claim_C3_witness :
    total_tax repC3v = 5 ∧ total_gross repC3v = 15 ∧
    total_tax repC3e = 2 ∧ total_gross repC3e = 12 := by
  have hv := (claim_C3 repC3v).2.1 (by decide)
  have he := (claim_C3 repC3e).2.2.1 (by decide)
  have h1 : total_tax repC3v = 5 := hv.1.trans (by decide)
  have h2 : total_gross repC3v = 15 := by rw [hv.2, h1]; decide
  have h3 : total_tax repC3e = 2 := he.1.trans (by decide)
  have h4 : total_gross repC3e = 12 := he.2.trans (by decide)
  exact ⟨h1, h2, h3, h4⟩

/-! ## C7 — totality and exactness of the tabular amount parser -/

/-- C7: `_parse_number` is total: `None` and empty/whitespace strings map to
0, native numerics pass through exactly, strings the `Decimal` constructor
rejects map to 0, and comma-decimal strings with (no-break) space thousands
separators parse to their exact value. -/
theorem claim_C7 :
    parse_number .vNone = 0 ∧
    (∀ q : ℚ, parse_number (.vNum q) = q) ∧
    parse_number (.vStr "") = 0 ∧
    parse_number (.vStr "   ") = 0 ∧
    (∀ s : String, parseDec (cleanNumberText (pyStrip s)) = none →
      parse_number (.vStr s) = 0) ∧
    parse_number (.vStr "abc") = 0 ∧
    parse_number (.vStr "12,34x") = 0 ∧
    parse_number (.vStr "1 234,56") = 1234.56 ∧
    parse_number (.vStr "1 234,56") = 1234.56 := by
  refine ⟨rfl, fun q => rfl, by decide, by decide, ?_, by decide, by decide, by decide,
    by decide⟩
  intro s h
  by_cases hs : pyStrip s = "" <;> simp [parse_number, hs, h]

theorem claim_C7_witness : parse_number (.vStr "++") = 0 :=
  claim_C7.2.2.2.2.1 "++" (by decide)

/-! ## C5 — row-level deduplication -/

/-- Duplicate every row in place, as the source exports are known to do. -/
def dupEach : List Row → List Row
  | [] => []
  | r :: rs => r :: r :: dupEach rs

lemma processRow_idem (st : PState) (row : Row) :
    processRow (processRow st row) row = processRow st row := by
  cases hn : row.nZ with
  | none => simp [processRow, hn]
  | some s0 =>
    by_cases hs : s0 = ""
    · simp [processRow, hn, hs]
    · by_cases hk : st.seen.any (fun k => decide (k = rowKey row (pyStrip s0)))
      · simp [processRow, hn, hs, hk]
      · have hhead : ((rowKey row (pyStrip s0)) :: st.seen).any
            (fun k => decide (k = rowKey row (pyStrip s0))) = true := by
          simp
        simp [processRow, hn, hs, hk, hhead]

/-- C5: feeding the tabular parser a file with every row duplicated yields
exactly the same reports as the de-duplicated file: the composite-key
`seen_lines` set drops the verbatim repeat of every row. -/
theorem claim_C5 (now : PDate) (rows : List Row) :
    restomax_parse now (dupEach rows) = restomax_parse now rows := by
  unfold restomax_parse
  suffices h : ∀ st, (dupEach rows).foldl processRow st = rows.foldl processRow st by
    rw [h]
  induction rows with
  | nil => intro st; rfl
  | cons r rs ih =>
    intro st
    simp only [dupEach, List.foldl]
    rw [processRow_idem, ih]

/-! ## C6 — result ordering and (non-)invariance under row permutation -/

lemma charsLe_total (xs ys : List Char) : charsLe xs ys = true ∨ charsLe ys xs = true := by
  induction xs generalizing ys with
  | nil => left; rfl
  | cons a xt ih =>
    cases ys with
    | nil => right; rfl
    | cons b yt =>
      by_cases h1 : a < b
      · left; simp [charsLe, h1]
      · by_cases h2 : b < a
        · right; simp [charsLe, h2]
        · rcases ih yt with h | h
          · left; simp [charsLe, h1, h2, h]
          · right; simp [charsLe, h1, h2, h]

lemma keyLe_total (a b : POSReport) : keyLe a b = true ∨ keyLe b a = true := by
  unfold keyLe dateLt
  by_cases hy1 : a.report_date.year < b.report_date.year
  · left; simp [hy1]
  · by_cases hy2 : b.report_date.year < a.report_date.year
    · right; simp [hy2]
    · have hy : a.report_date.year = b.report_date.year := by omega
      by_cases hm1 : a.report_date.month < b.report_date.month
      · left; simp [hy, hm1]
      · by_cases hm2 : b.report_date.month < a.report_date.month
        · right; simp [hy, hm2]
        · have hm : a.report_date.month = b.report_date.month := by omega
          by_cases hd1 : a.report_date.day < b.report_date.day
          · left; simp [hy, hm, hd1]
          · by_cases hd2 : b.report_date.day < a.report_date.day
            · right; simp [hy, hm, hd2]
            · have hdate : a.report_date = b.report_date := by
                have hd : a.report_date.day = b.report_date.day := by omega
                cases ha : a.report_date
                cases hb : b.report_date
                simp_all
              rcases charsLe_total a.report_number.data b.report_number.data with h | h
              · left; simp [hdate, strLe, h]
              · right; simp [hdate, strLe, h]

/-- The sortedness predicate of the claim: consecutive reports are ordered
by `(report_date, report_number)`. -/
def sortedByKey (l : List POSReport) : Prop :=
  l.Chain' (fun a b => keyLe a b = true)

lemma sortedByKey_insertReport (x : POSReport) (l : List POSReport)
    (h : sortedByKey l) : sortedByKey (insertReport x l) := by
  induction l with
  | nil => simp [sortedByKey, insertReport]
  | cons y ys ih =>
    by_cases hxy : keyLe x y
    · have : sortedByKey (x :: y :: ys) := List.chain'_cons.mpr ⟨hxy, h⟩
      simpa [sortedByKey, insertReport, hxy] using this
    · have hyx : keyLe y x = true := by
        rcases keyLe_total x y with h' | h'
        · exact absurd h' hxy
        · exact h'
      rcases List.chain'_cons'.mp h with ⟨hhead, htail⟩
      have hins := ih htail
      have : sortedByKey (y :: insertReport x ys) := by
        apply List.chain'_cons'.mpr
        refine ⟨?_, hins⟩
        intro z hz
        cases ys with
        | nil =>
          simp [insertReport] at hz
          rw [← hz]; exact hyx
        | cons w ws =>
          by_cases hxw : keyLe x w
          · simp [insertReport, hxw] at hz
            rw [← hz]; exact hyx
          · simp [insertReport, hxw] at hz
            rw [← hz]; exact hhead w rfl
      simpa [sortedByKey, insertReport, hxy] using this

lemma sortedByKey_sortReports (l : List POSReport) : sortedByKey (sortReports l) := by
  induction l with
  | nil => simp [sortedByKey, sortReports]
  | cons x xs ih =>
    have : sortReports (x :: xs) = insertReport x (sortReports xs) := rfl
    rw [this]
    exact sortedByKey_insertReport _ _ ih

/-- A first report-"1" revenue row dated 01/06/2025. -/
def rowC6a : Row :=
  { nZ := some "1", dateCloture := some "01/06/2025", compteGeneral := some "700100",
    description := some "a", tva := some "10", credit := some "20" }

/-- A second report-"1" revenue row, dated 02/06/2025: the report's date is
taken from whichever of the two rows the parser sees first. -/
def rowC6b : Row :=
  { nZ := some "1", dateCloture := some "02/06/2025", compteGeneral := some "700100",
    description := some "b", tva := some "10", credit := some "30" }

/-- C6 counterexample: the parse output is not invariant under permutation
of the source rows — swapping two rows of the same report changes the
report's date (taken from the first row seen) and its line order. -/
theorem claim_C6_counterexample :
    restomax_parse nowFix [rowC6a, rowC6b] ≠ restomax_parse nowFix [rowC6b, rowC6a] := by
  decide

/-- C6 amended: for every input, the tabular parser's output is sorted
ascending by `(report_date, report_number)`, and the final sorting step both
variants share sorts any report list; but the output is not invariant under
permutation of the source rows (see the counterexample). -/
theorem claim_C6_amended (now : PDate) (rows : List Row) :
    sortedByKey (restomax_parse now rows) ∧
    ∀ l : List POSReport, sortedByKey (sortReports l) := by
  constructor
  · unfold restomax_parse
    exact sortedByKey_sortReports _
  · exact sortedByKey_sortReports

/-! ## C2 — halving and positivity of surviving rows; end-to-end scenario -/

/-- Every revenue and payment entry accumulated in the parse state has a
strictly positive (pre-quantization) amount. -/
def entriesPos (l : List (String × RData)) : Prop :=
  ∀ e ∈ l, (∀ rv ∈ e.2.revenues, 0 < rv.amount) ∧ (∀ pm ∈ e.2.payments, 0 < pm.amount)

lemma entriesPos_updateR (l : List (String × RData)) (rn : String) (f : RData → RData)
    (h : entriesPos l)
    (hf : ∀ d, ((∀ rv ∈ d.revenues, 0 < rv.amount) ∧ (∀ pm ∈ d.payments, 0 < pm.amount)) →
      ((∀ rv ∈ (f d).revenues, 0 < rv.amount) ∧ (∀ pm ∈ (f d).payments, 0 < pm.amount))) :
    entriesPos (updateR l rn f) := by
  intro e he
  unfold updateR at he
  obtain ⟨y, hy, hey⟩ := List.mem_map.mp he
  by_cases hyr : y.1 == rn
  · rw [if_pos hyr] at hey
    rw [← hey]
    exact hf y.2 (h y hy)
  · rw [if_neg hyr] at hey
    rw [← hey]
    exact h y hy

lemma entriesPos_updateR_rev (l : List (String × RData)) (rn acc idr desc : String)
    (amt tr : ℚ) (h : entriesPos l) (ha : 0 < amt) :
    entriesPos (updateR l rn (fun d =>
      { d with revenues := d.revenues ++ [⟨acc, idr, desc, amt, tr⟩] })) := by
  apply entriesPos_updateR _ _ _ h
  intro d hd
  constructor
  · intro rv hrv
    rcases List.mem_append.mp hrv with hin | hin
    · exact hd.1 rv hin
    · rw [List.mem_singleton.mp hin]; exact ha
  · intro pm hpm
    exact hd.2 pm hpm

lemma entriesPos_updateR_pay (l : List (String × RData)) (rn acc idr desc : String)
    (amt : ℚ) (h : entriesPos l) (ha : 0 < amt) :
    entriesPos (updateR l rn (fun d =>
      { d with payments := d.payments ++ [⟨acc, idr, desc, amt⟩] })) := by
  apply entriesPos_updateR _ _ _ h
  intro d hd
  constructor
  · intro rv hrv
    exact hd.1 rv hrv
  · intro pm hpm
    rcases List.mem_append.mp hpm with hin | hin
    · exact hd.2 pm hin
    · rw [List.mem_singleton.mp hin]; exact ha

lemma entriesPos_updateR_vat (l : List (String × RData)) (rn acc desc : String)
    (amt tr : ℚ) (h : entriesPos l) :
    entriesPos (updateR l rn (fun d =>
      { d with vat := d.vat ++ [⟨acc, desc, amt, tr⟩] })) := by
  apply entriesPos_updateR _ _ _ h
  intro d hd
  exact ⟨fun rv hrv => hd.1 rv hrv, fun pm hpm => hd.2 pm hpm⟩

lemma entriesPos_classifyRow (reports1 : List (String × RData)) (rn : String) (row : Row)
    (h : entriesPos reports1) : entriesPos (classifyRow reports1 rn row) := by
  simp only [classifyRow]
  split_ifs
  all_goals
    first
      | exact h
      | exact entriesPos_updateR_rev _ _ _ _ _ _ _ h (by assumption)
      | exact entriesPos_updateR_pay _ _ _ _ _ _ h (by assumption)
      | exact entriesPos_updateR_vat _ _ _ _ _ _ h

lemma entriesPos_processRow (st : PState) (row : Row) (h : entriesPos st.reports) :
    entriesPos (processRow st row).reports := by
  cases hn : row.nZ with
  | none => simpa [processRow, hn] using h
  | some s0 =>
    by_cases hs : s0 = ""
    · simpa [processRow, hn, hs] using h
    · by_cases hk : st.seen.any (fun k => decide (k = rowKey row (pyStrip s0)))
      · simpa [processRow, hn, hs, hk] using h
      · have h1 : entriesPos (if (lookupR st.reports (pyStrip s0)).isSome then st.reports
            else st.reports ++ [(pyStrip s0, { date := row.dateCloture })]) := by
          split_ifs with hl
          · exact h
          · intro e he
            rcases List.mem_append.mp he with hin | hin
            · exact h e hin
            · rw [List.mem_singleton.mp hin]
              exact ⟨fun rv hrv => by simp at hrv, fun pm hpm => by simp at hpm⟩
        simp only [processRow, hn, hs, if_neg hs, hk, Bool.false_eq_true, if_false]
        exact entriesPos_classifyRow _ _ _ h1

/-- C2: every surviving revenue or payment entry carries a strictly positive
halved amount (revenue `(credit − debit) / 2`, payment `(debit − credit) / 2`;
non-positive results are dropped), and on the spec's end-to-end input the
parse yields exactly one report with one line of net 10.00, one payment of
5.50, and `total_net` 10.00. -/
theorem claim_C2 :
    (∀ rows : List Row, entriesPos ((rows.foldl processRow {}).reports)) ∧
    restomax_parse nowFix [rowC2a, rowC2b] = [repC2] ∧
    total_net repC2 = 10 := by
  refine ⟨?_, by decide, by decide⟩
  intro rows
  have haux : ∀ (rows : List Row) (st : PState), entriesPos st.reports →
      entriesPos ((rows.foldl processRow st).reports) := by
    intro rows
    induction rows with
    | nil => intro st h; exact h
    | cons r rs ih =>
      intro st h
      exact ih (processRow st r) (entriesPos_processRow st r h)
  exact haux rows {} (by intro e he; simp at he)

/-- The first (and only) accumulator entry produced by the C2 rows. -/
def entryC2 : String × RData :=
  ("1", { date := some "01/06/2025",
          revenues := [⟨"700100", "", "Plat du jour", 10, 10⟩],
          payments := [⟨"580000", "", "Especes", 11/2⟩] })

theorem claim_C2_witness :
    (∀ rv ∈ entryC2.2.revenues, 0 < rv.amount) ∧
    (∀ pm ∈ entryC2.2.payments, 0 < pm.amount) :=
  claim_C2.1 [rowC2a, rowC2b] entryC2 (by
    have h : ([rowC2a, rowC2b].foldl processRow {}).reports = [entryC2] := by decide
    rw [h]
    exact List.mem_singleton.mpr rfl)


/-! ## C10 — PDF payment invariant -/

/-- C10: whenever every regex match delivers one of the seven alternation
keywords (which the pattern guarantees, case-insensitively), every payment
the PDF variant produces has a strictly positive amount and a source code in
the fixed four-element set; the catch-all normalization branch is
unreachable. -/
theorem claim_C10 (ms : List (String × String))
    (h : ∀ m ∈ ms, pyLower m.1 ∈ paymentKeywords) :
    ∀ p ∈ extract_payments ms,
      0 < p.amount ∧
      (p.source_code = "eft" ∨ p.source_code = "cash" ∨
       p.source_code = "cheque" ∨ p.source_code = "ticket") := by
  intro p hp
  simp only [extract_payments, List.mem_filterMap] at hp
  obtain ⟨m, hm, hf⟩ := hp
  by_cases ha : pdf_parse_number m.2 ≤ 0
  · simp [ha] at hf
  · simp only [ha, if_false] at hf
    rw [Option.some.injEq] at hf
    subst hf
    refine ⟨not_le.mp ha, ?_⟩
    have hfour : ∀ kw ∈ paymentKeywords,
        (normalizePayment kw).1 = "eft" ∨ (normalizePayment kw).1 = "cash" ∨
        (normalizePayment kw).1 = "cheque" ∨ (normalizePayment kw).1 = "ticket" := by
      decide
    exact hfour (pyLower m.1) (h m hm)

/-- A concrete payment the PDF extractor produces, for the C10 witness. -/
def payC10 : POSPayment :=
  { source_code := "eft", source_name := "Carte bancaire", amount := 8152.5 }

theorem claim_C10_witness :
    0 < payC10.amount ∧
    (payC10.source_code = "eft" ∨ payC10.source_code = "cash" ∨
     payC10.source_code = "cheque" ∨ payC10.source_code = "ticket") :=
  claim_C10 [("EFT", "8.152,50")] (by decide) payC10 (by
    have h : extract_payments [("EFT", "8.152,50")] = [payC10] := by decide
    rw [h]
    exact List.mem_singleton.mpr rfl)

/-! ## C1 — intra-report tax check -/

lemma taxCheckLoop_char (ls : List POSLine) (ws : List TaxDiscrepancy) :
    taxCheckLoop ls ws =
      match ls.find? isTaxOffender with
      | some l => .error (mkDiscrepancy l)
      | none => .ok (ws ++ (ls.filter isTaxWarning).map mkDiscrepancy) := by
  induction ls generalizing ws with
  | nil => simp [taxCheckLoop]
  | cons l ls ih =>
    by_cases h0 : l.tax_rate ≤ 0
    · have hno : isTaxOffender l = false := by simp [isTaxOffender, not_lt.mpr h0]
      have hnw : isTaxWarning l = false := by simp [isTaxWarning, not_lt.mpr h0]
      rw [taxCheckLoop, if_pos h0, ih]
      rw [List.find?_cons, hno, List.filter_cons, hnw]
      simp
    · push_neg at h0
      by_cases h1 : 1 < lineTaxDiff l
      · have hyes : isTaxOffender l = true := by simp [isTaxOffender, h0, h1]
        rw [taxCheckLoop, if_neg (not_le.mpr h0), if_pos h1]
        rw [List.find?_cons, hyes]
      · by_cases h2 : (1 : ℚ)/100 < lineTaxDiff l
        · have hno : isTaxOffender l = false := by simp [isTaxOffender, h1]
          have hyes : isTaxWarning l = true := by
            have hle := not_lt.mp h1
            simp only [isTaxWarning, Bool.and_eq_true, decide_eq_true_eq]
            tauto
          rw [taxCheckLoop, if_neg (not_le.mpr h0), if_neg h1, if_pos h2, ih]
          rw [List.find?_cons, hno, List.filter_cons, hyes]
          cases hfind : ls.find? isTaxOffender <;> simp
        · have hno : isTaxOffender l = false := by simp [isTaxOffender, h1]
          have hnw : isTaxWarning l = false := by
            simp only [isTaxWarning, Bool.and_eq_false_iff, decide_eq_false_iff_not]
            tauto
          rw [taxCheckLoop, if_neg (not_le.mpr h0), if_neg h1, if_neg h2, ih]
          rw [List.find?_cons, hno, List.filter_cons, hnw]
          simp

/-- C1: with an empty `vat_by_rate`, the check examines every line with a
positive tax rate against `expected = net × rate / 100`: it raises (naming
the first offending line with the rounded expected, actual, and difference)
iff some line's difference exceeds 1.0; otherwise it returns the warnings
for exactly the lines whose difference lies in (0.01, 1.0]; it is fully
silent iff every positive-rate line's difference is at most 0.01 (so a
difference of exactly 1.00 never raises and exactly 0.01 stays silent).
With a non-empty `vat_by_rate`, the check does nothing and never fails. -/
theorem claim_C1 (r : POSReport) :
    (r.vat_by_rate ≠ [] → validate_tax_amounts r = .ok []) ∧
    (r.vat_by_rate = [] →
      ((∃ d, validate_tax_amounts r = .error d) ↔
        ∃ l ∈ r.lines, 0 < l.tax_rate ∧ 1 < lineTaxDiff l) ∧
      (∀ d, validate_tax_amounts r = .error d →
        ∃ l ∈ r.lines, 0 < l.tax_rate ∧ 1 < lineTaxDiff l ∧ d = mkDiscrepancy l) ∧
      (∀ ws, validate_tax_amounts r = .ok ws →
        ws = (r.lines.filter isTaxWarning).map mkDiscrepancy) ∧
      (validate_tax_amounts r = .ok [] ↔
        ∀ l ∈ r.lines, 0 < l.tax_rate → lineTaxDiff l ≤ 1/100)) := by
  constructor
  · intro h
    simp [validate_tax_amounts, h]
  · intro h
    have hv : validate_tax_amounts r = taxCheckLoop r.lines [] := by
      simp [validate_tax_amounts, h]
    rw [hv, taxCheckLoop_char]
    refine ⟨?_, ?_, ?_, ?_⟩
    · cases hfind : r.lines.find? isTaxOffender with
      | some l =>
        simp only [hfind]
        constructor
        · intro _
          refine ⟨l, List.mem_of_find?_eq_some hfind, ?_⟩
          have := List.find?_some hfind
          simpa [isTaxOffender] using this
        · intro _
          exact ⟨mkDiscrepancy l, rfl⟩
      | none =>
        simp only [hfind]
        constructor
        · rintro ⟨d, hd⟩
          cases hd
        · rintro ⟨l, hl, hpos, hdiff⟩
          have := List.find?_eq_none.mp hfind l hl
          rw [isTaxOffender] at this
          simp [hpos, hdiff] at this
    · intro d hd
      cases hfind : r.lines.find? isTaxOffender with
      | some l =>
        rw [hfind] at hd
        have hmem := List.mem_of_find?_eq_some hfind
        have hoff := List.find?_some hfind
        simp only [isTaxOffender, Bool.and_eq_true, decide_eq_true_eq] at hoff
        cases hd
        exact ⟨l, hmem, hoff.1, hoff.2, rfl⟩
      | none =>
        rw [hfind] at hd
        cases hd
    · intro ws hws
      cases hfind : r.lines.find? isTaxOffender with
      | some l =>
        rw [hfind] at hws
        cases hws
      | none =>
        rw [hfind] at hws
        cases hws
        simp
    · cases hfind : r.lines.find? isTaxOffender with
      | some l =>
        simp only [hfind]
        constructor
        · intro hk
          cases hk
        · intro hall
          have hmem := List.mem_of_find?_eq_some hfind
          have hoff := List.find?_some hfind
          simp only [isTaxOffender, Bool.and_eq_true, decide_eq_true_eq] at hoff
          have := hall l hmem hoff.1
          linarith [hoff.2]
      | none =>
        simp only [hfind, List.nil_append, Except.ok.injEq]
        constructor
        · intro hk l hl hpos
          by_contra hgt
          push_neg at hgt
          have hnotoff := List.find?_eq_none.mp hfind l hl
          simp only [isTaxOffender, Bool.and_eq_true, decide_eq_true_eq, not_and] at hnotoff
          have hle1 : lineTaxDiff l ≤ 1 := not_lt.mp (hnotoff hpos)
          have hwarn : isTaxWarning l = true := by
            simp [isTaxWarning, hpos, hle1]
            rw [← one_div]
            exact hgt
          have hmem : mkDiscrepancy l ∈ (r.lines.filter isTaxWarning).map mkDiscrepancy :=
            List.mem_map.mpr ⟨l, List.mem_filter.mpr ⟨hl, hwarn⟩, rfl⟩
          rw [hk] at hmem
          cases hmem
        · intro hall
          rw [List.map_eq_nil_iff, List.filter_eq_nil_iff]
          intro l hl hw
          simp only [isTaxWarning, Bool.and_eq_true, decide_eq_true_eq] at hw
          have hpos : 0 < l.tax_rate := by tauto
          have hgt : (100 : ℚ)⁻¹ < lineTaxDiff l := by tauto
          have hle := hall l hl hpos
          rw [one_div] at hle
          linarith

/-- A report whose single line is exactly at the silent boundary
(difference 0.01), for the C1 witness. -/
def repC1 : POSReport :=
  { report_number := "7", report_date := ⟨2025, 6, 7⟩,
    lines := [{ source_code := "x", description := "x", net_amount := 10,
                tax_rate := 10, tax_amount := 0.99, gross_amount := 11 }] }

theorem claim_C1_witness : validate_tax_amounts repC1 = .ok [] :=
  (((claim_C1 repC1).2 (by decide)).2.2.2).mpr (by
    intro l hl hpos
    have h : l ∈ repC1.lines := hl
    rw [List.mem_singleton.mp h]
    decide)

/-! ## C9 — report-vs-invoice check -/

/-- An all-zero invoice, for the C9 counterexample. -/
def siC9 : SalesInvoiceTotals :=
  { net_total := 0, total_taxes_and_charges := 0, grand_total := 0, payments := [] }

/-- A report whose authoritative VAT is 1.004: beyond tolerance against the
raw total, within tolerance after 2-decimal rounding. -/
def repC9 : POSReport :=
  { report_number := "9", report_date := ⟨2025, 6, 9⟩, vat_by_rate := [(10, 1.004)] }

/-- C9 counterexample: the code raises on this input although every pair
compared at 2-decimal rounding is within the tolerance of 1.0 — the code
rounds only the invoice side, not the report side, so the claim's
"compares at 2-decimal rounding ... raises iff at least one pair exceeds"
is false. -/
theorem claim_C9_counterexample :
    (∃ e, validate_invoice_against_z_ticket siC9 repC9 = .error e) ∧
    |q2 (total_net repC9) - q2 siC9.net_total| ≤ 1 ∧
    |q2 (total_tax repC9) - q2 siC9.total_taxes_and_charges| ≤ 1 ∧
    |q2 (total_gross repC9) - q2 siC9.grand_total| ≤ 1 ∧
    |q2 (total_payments repC9) - q2 (pySum siC9.payments)| ≤ 1 := by
  refine ⟨?_, by decide, by decide, by decide, by decide⟩
  unfold validate_invoice_against_z_ticket
  cases hd : invoiceDiscrepancies siC9 repC9 with
  | nil => exact absurd hd (by decide)
  | cons a as => exact ⟨(repC9.report_number, a :: as), rfl⟩

lemma discrepancies_nil_iff (si : SalesInvoiceTotals) (r : POSReport) :
    invoiceDiscrepancies si r = [] ↔
      ¬(1 < |total_net r - q2 si.net_total| ∨
        1 < |total_tax r - q2 si.total_taxes_and_charges| ∨
        1 < |total_gross r - q2 si.grand_total| ∨
        1 < |total_payments r - q2 (pySum si.payments)|) := by
  simp only [invoiceDiscrepancies]
  split_ifs <;> simp_all

/-- C9 amended: the check compares the raw report totals against the
invoice totals rounded to two decimals, evaluates all four pairs even after
one exceeds, raises a single combined failure iff at least one pair exceeds
the tolerance of 1.0, and the failure payload lists exactly the exceeded
pairs, each with both shown values and the difference. -/
theorem claim_C9_amended (si : SalesInvoiceTotals) (r : POSReport) :
    ((∃ e, validate_invoice_against_z_ticket si r = .error e) ↔
      (1 < |total_net r - q2 si.net_total| ∨
       1 < |total_tax r - q2 si.total_taxes_and_charges| ∨
       1 < |total_gross r - q2 si.grand_total| ∨
       1 < |total_payments r - q2 (pySum si.payments)|)) ∧
    (∀ e, validate_invoice_against_z_ticket si r = .error e →
      e = (r.report_number, invoiceDiscrepancies si r)) ∧
    ((⟨"Net Total (HT)", q2 (total_net r), q2 si.net_total,
        q2 |total_net r - q2 si.net_total|⟩ : PairDiscrepancy) ∈
        invoiceDiscrepancies si r ↔ 1 < |total_net r - q2 si.net_total|) ∧
    ((⟨"Tax Total (TVA)", q2 (total_tax r), q2 si.total_taxes_and_charges,
        q2 |total_tax r - q2 si.total_taxes_and_charges|⟩ : PairDiscrepancy) ∈
        invoiceDiscrepancies si r ↔ 1 < |total_tax r - q2 si.total_taxes_and_charges|) ∧
    ((⟨"Grand Total (TTC)", q2 (total_gross r), q2 si.grand_total,
        q2 |total_gross r - q2 si.grand_total|⟩ : PairDiscrepancy) ∈
        invoiceDiscrepancies si r ↔ 1 < |total_gross r - q2 si.grand_total|) ∧
    ((⟨"Payments", q2 (total_payments r), q2 (pySum si.payments),
        q2 |total_payments r - q2 (pySum si.payments)|⟩ : PairDiscrepancy) ∈
        invoiceDiscrepancies si r ↔ 1 < |total_payments r - q2 (pySum si.payments)|) := by
  refine ⟨⟨?_, ?_⟩, ?_, ?_, ?_, ?_, ?_⟩
  · rintro ⟨e, he⟩
    by_contra hno
    have hnil : invoiceDiscrepancies si r = [] := (discrepancies_nil_iff si r).mpr hno
    unfold validate_invoice_against_z_ticket at he
    rw [hnil] at he
    cases he
  · intro hD
    have hne : invoiceDiscrepancies si r ≠ [] :=
      fun hEq => ((discrepancies_nil_iff si r).mp hEq) hD
    unfold validate_invoice_against_z_ticket
    cases hd : invoiceDiscrepancies si r with
    | nil => exact absurd hd hne
    | cons a as => exact ⟨(r.report_number, a :: as), rfl⟩
  · intro e he
    unfold validate_invoice_against_z_ticket at he
    cases hd : invoiceDiscrepancies si r with
    | nil => rw [hd] at he; cases he
    | cons a as =>
      rw [hd] at he
      cases he
      rfl
  all_goals
    simp only [invoiceDiscrepancies]
  all_goals
    have hnt : ("Net Total (HT)" : String) ≠ "Tax Total (TVA)" := by decide
    have hng : ("Net Total (HT)" : String) ≠ "Grand Total (TTC)" := by decide
    have hnp : ("Net Total (HT)" : String) ≠ "Payments" := by decide
    have htg : ("Tax Total (TVA)" : String) ≠ "Grand Total (TTC)" := by decide
    have htp : ("Tax Total (TVA)" : String) ≠ "Payments" := by decide
    have hgp : ("Grand Total (TTC)" : String) ≠ "Payments" := by decide
    split_ifs <;>
      simp_all [List.mem_append, List.mem_singleton, PairDiscrepancy.mk.injEq]

/-- An invoice far from the report, for the C9 witness. -/
def siC9w : SalesInvoiceTotals :=
  { net_total := 0, total_taxes_and_charges := 0, grand_total := 0, payments := [] }

/-- A report whose tax total exceeds the tolerance outright. -/
def repC9w : POSReport :=
  { report_number := "9w", report_date := ⟨2025, 6, 9⟩, vat_by_rate := [(10, 5)] }

theorem claim_C9_amended_witness :
    validate_invoice_against_z_ticket siC9w repC9w =
      .error ("9w", invoiceDiscrepancies siC9w repC9w) := by
  have h := claim_C9_amended siC9w repC9w
  obtain ⟨e, he⟩ := h.1.mpr (by decide)
  have hb := h.2.1 e he
  rw [hb] at he
  exact he

/-! ## C4 — idempotency of invoice creation -/

lemma length_le_one_mem_eq {α : Type} {l : List α} {x : α}
    (hl : l.length ≤ 1) (hx : x ∈ l) : l = [x] := by
  cases l with
  | nil => cases hx
  | cons a t =>
    cases t with
    | nil =>
      rw [List.mem_singleton.mp hx]
    | cons b u => simp at hl

lemma filter_swap {α : Type} (p q : α → Bool) (l : List α) :
    (l.filter p).filter q = (l.filter q).filter p := by
  induction l with
  | nil => rfl
  | cons a t ih =>
    by_cases hp : p a <;> by_cases hq : q a <;>
      simp [List.filter_cons, hp, hq, ih]

/-- C4: given at most one non-cancelled invoice for the looked-up
`(po_no, company)` key, the idempotency head of `_create_sales_invoice`
leaves at most one afterwards (reusing a submitted invoice unchanged,
deleting-and-rebuilding a draft, or creating the first one), never grows
any other key, and when a submitted invoice exists it is returned as-is
with no new document created. -/
theorem claim_C4 (store : List Invoice) (po comp : String) (fresh : ℕ) (cd : Bool)
    (h : countActive store po comp ≤ 1) :
    countActive (createInvoiceIdem store po comp fresh cd).1 po comp ≤ 1 ∧
    (∀ p c, ¬(p = po ∧ c = comp) →
      countActive (createInvoiceIdem store po comp fresh cd).1 p c ≤
        countActive store p c) ∧
    (∀ ex, findExisting store po comp = some ex → ex.docstatus = 1 →
      createInvoiceIdem store po comp fresh cd = (store, ex.name, false)) := by
  have hnewAct : ∀ p c, (p = po ∧ c = comp) ∨ ¬(p = po ∧ c = comp) := fun p c =>
    Classical.em _
  cases hex : findExisting store po comp with
  | none =>
    have hzero : countActive store po comp = 0 := by
      unfold countActive
      rw [List.length_eq_zero, List.filter_eq_nil_iff]
      intro i hi
      simpa [findExisting] using List.find?_eq_none.mp hex i hi
    refine ⟨?_, ?_, ?_⟩
    · simp only [createInvoiceIdem, hex]
      unfold countActive at hzero ⊢
      rw [List.filter_append, List.length_append, hzero]
      cases cd <;> simp
    · intro p c hne
      simp only [createInvoiceIdem, hex]
      unfold countActive
      rw [List.filter_append, List.length_append]
      have hno :
          (([(⟨fresh, po, comp, if cd then 0 else 1⟩ : Invoice)]).filter
            (fun i => i.po_no == p && i.company == c && i.docstatus != 2)).length = 0 := by
        rw [List.length_eq_zero, List.filter_eq_nil_iff]
        intro i hi
        rw [List.mem_singleton.mp hi]
        simp only [Bool.and_eq_true, beq_iff_eq, bne_iff_ne, Ne, not_and]
        intro hp hc
        exact absurd ⟨hp.1.symm, hp.2.symm⟩ hne
      omega
    · intro ex hex' _
      cases hex'
  | some ex =>
    by_cases h1 : ex.docstatus = 1
    · refine ⟨?_, ?_, ?_⟩
      · simp only [createInvoiceIdem, hex, if_pos h1]
        exact h
      · intro p c _
        simp only [createInvoiceIdem, hex, if_pos h1]
        exact le_rfl
      · intro ex' hex' _
        cases hex'
        simp [createInvoiceIdem, hex, h1]
    · have hfind : store.find?
          (fun i => i.po_no == po && i.company == comp && i.docstatus != 2) = some ex :=
        hex
      have hmem : ex ∈ store := List.mem_of_find?_eq_some hfind
      have hact := List.find?_some hfind
      have hsing : store.filter
          (fun i => i.po_no == po && i.company == comp && i.docstatus != 2) = [ex] := by
        apply length_le_one_mem_eq
        · exact h
        · exact List.mem_filter.mpr ⟨hmem, hact⟩
      refine ⟨?_, ?_, ?_⟩
      · simp only [createInvoiceIdem, hex, if_neg h1]
        unfold countActive
        rw [List.filter_append, List.length_append]
        have hleft : ((store.filter (fun i => ¬ i.name = ex.name)).filter
            (fun i => i.po_no == po && i.company == comp && i.docstatus != 2)).length
            = 0 := by
          rw [filter_swap]
          unfold countActive at hsing
          rw [hsing]
          simp
        rw [hleft]
        cases cd <;> simp
      · intro p c hne
        simp only [createInvoiceIdem, hex, if_neg h1]
        unfold countActive
        rw [List.filter_append, List.length_append]
        have hno :
            (([(⟨fresh, po, comp, if cd then 0 else 1⟩ : Invoice)]).filter
              (fun i => i.po_no == p && i.company == c && i.docstatus != 2)).length = 0 := by
          rw [List.length_eq_zero, List.filter_eq_nil_iff]
          intro i hi
          rw [List.mem_singleton.mp hi]
          simp only [Bool.and_eq_true, beq_iff_eq, bne_iff_ne, Ne, not_and]
          intro hp hc
          exact absurd ⟨hp.1.symm, hp.2.symm⟩ hne
        have hmono : ((store.filter (fun i => ¬ i.name = ex.name)).filter
            (fun i => i.po_no == p && i.company == c && i.docstatus != 2)).length ≤
            (store.filter (fun i => i.po_no == p && i.company == c &&
              i.docstatus != 2)).length := by
          rw [filter_swap]
          exact List.Sublist.length_le (List.filter_sublist _)
        omega
      · intro ex' hex' h1'
        cases hex'
        exact absurd h1' h1

/-- A store holding one draft for the key ("Z-1", "C"), for the C4 witness. -/
def storeC4 : List Invoice :=
  [{ name := 3, po_no := "Z-1", company := "C", docstatus := 0 }]

theorem claim_C4_witness :
    countActive (createInvoiceIdem storeC4 "Z-1" "C" 7 false).1 "Z-1" "C" ≤ 1 ∧
    countActive (createInvoiceIdem storeC4 "Z-1" "C" 7 false).1 "Z-2" "C" ≤
      countActive storeC4 "Z-2" "C" :=
  ⟨(claim_C4 storeC4 "Z-1" "C" 7 false (by decide)).1,
   (claim_C4 storeC4 "Z-1" "C" 7 false (by decide)).2.1 "Z-2" "C" (by simp)⟩

/-! ## C8 — unmapped payment codes are a per-report hard failure -/

/-- Did the fallible step succeed? -/
def isOkE {ε α : Type} : Except ε α → Bool
  | .ok _ => true
  | .error _ => false

lemma resolvePayments_unmapped (c : Connector) (ps : List POSPayment) (p : POSPayment)
    (hp : p ∈ ps) (hm : get_mode_of_payment_for_source_code c p.source_code = none) :
    ∃ sc, get_mode_of_payment_for_source_code c sc = none ∧
      resolvePayments c ps = .error (payErrMsg sc) := by
  induction ps with
  | nil => cases hp
  | cons q qs ih =>
    cases hq : get_mode_of_payment_for_source_code c q.source_code with
    | none => exact ⟨q.source_code, hq, by simp [resolvePayments, hq]⟩
    | some m =>
      have hp' : p ∈ qs := by
        rcases List.mem_cons.mp hp with h | h
        · rw [h, hq] at hm
          cases hm
        · exact h
      obtain ⟨sc, hsc, hres⟩ := ih hp'
      refine ⟨sc, hsc, ?_⟩
      simp [resolvePayments, hq, hres]

lemma batchStatus_of_error (rows : List RowStatus) (m : String)
    (hm : RowStatus.Error m ∈ rows) :
    batchStatus rows = .Error ∨ batchStatus rows = .PartialSuccess := by
  have herr : 0 < (rows.filter
      (fun s => match s with | .Error _ => true | _ => false)).length := by
    rw [List.length_pos]
    exact List.ne_nil_of_mem (List.mem_filter.mpr ⟨hm, rfl⟩)
  simp only [batchStatus]
  split_ifs with hA hB hC
  · omega
  · omega
  · left; rfl
  · right; rfl

/-- C8: payment resolution is an exact-match lookup with no fallback; if a
report reaches the payment loop (non-empty lines, tax check passes, all
items resolve) and carries a payment whose source code has no mapping,
building its document fails with the message naming an unmapped source code,
the report's row is marked Error, and the batch derives status Error or
Partial Success from the remaining rows. -/
theorem claim_C8 (c : Connector) (reports : List POSReport) (r : POSReport)
    (p : POSPayment) (hr : r ∈ reports) (hp : p ∈ r.payments)
    (hmap : get_mode_of_payment_for_source_code c p.source_code = none)
    (hlines : r.lines ≠ [])
    (htax : isOkE (validate_tax_amounts r) = true)
    (hitems : isOkE (resolveLines c r.lines) = true) :
    ∃ sc, get_mode_of_payment_for_source_code c sc = none ∧
      runReport c r = .Error (payErrMsg sc) ∧
      (r.report_number, RowStatus.Error (payErrMsg sc)) ∈ (runImport c reports).1 ∧
      ((runImport c reports).2 = .Error ∨ (runImport c reports).2 = .PartialSuccess) := by
  obtain ⟨sc, hsc, hres⟩ := resolvePayments_unmapped c r.payments p hp hmap
  obtain ⟨items, hitems'⟩ : ∃ v, resolveLines c r.lines = .ok v := by
    cases hv : resolveLines c r.lines with
    | ok v => exact ⟨v, rfl⟩
    | error e => rw [hv] at hitems; cases hitems
  have hb : buildInvoiceMappings c r = .error (payErrMsg sc) := by
    simp [buildInvoiceMappings, hitems', hres]
  have hrr : runReport c r = .Error (payErrMsg sc) := by
    cases hv : validate_tax_amounts r with
    | error d => rw [hv] at htax; cases htax
    | ok ws => simp [runReport, hlines, hv, hb]
  refine ⟨sc, hsc, hrr, ?_, ?_⟩
  · simp only [runImport]
    exact List.mem_map.mpr ⟨r, hr, by rw [hrr]⟩
  · apply batchStatus_of_error _ (payErrMsg sc)
    simp only [runImport, List.map_map]
    exact List.mem_map.mpr ⟨r, hr, by simp [hrr]⟩

/-- A connector with a default item but no payment mappings, for the C8
witness. -/
def connC8 : Connector :=
  { item_mapping := [], payment_mapping := [], default_unmapped_item := some "MISC",
    company := "C" }

/-- A report with one zero-rate line and one card payment. -/
def repC8 : POSReport :=
  { report_number := "1", report_date := ⟨2025, 6, 1⟩,
    lines := [{ source_code := "L1", description := "plat", net_amount := 10,
                tax_rate := 0, tax_amount := 0, gross_amount := 10 }],
    payments := [{ source_code := "CB", source_name := "CB", amount := 5 }] }

theorem claim_C8_witness :
    ∃ sc, get_mode_of_payment_for_source_code connC8 sc = none ∧
      runReport connC8 repC8 = .Error (payErrMsg sc) ∧
      (repC8.report_number, RowStatus.Error (payErrMsg sc)) ∈ (runImport connC8 [repC8]).1 ∧
      ((runImport connC8 [repC8]).2 = .Error ∨
        (runImport connC8 [repC8]).2 = .PartialSuccess) :=
  claim_C8 connC8 [repC8] repC8 ⟨"CB", "CB", 5⟩ (List.Mem.head _)
    (List.Mem.head _) (by decide) (by decide) (by decide) (by decide)

end RatEval

end PosImport
